import Mathlib

/-!
Verification development for the remote-ssh-mcp command execution core.

The definitions below are a shallow embedding of the TypeScript source:

* `src/transport/remote-transport.ts` — error taxonomy (`ErrorCode`, `TransportError`);
* `src/transport/ssh.ts` — known-hosts loading (`loadKnownHostsEntries`, modelled by
  `parseKnownHostsLine` / `loadKnownHostsParse` over the file contents), host
  candidates (`buildHostCandidates`), the verifier (`createHostVerifier` and the
  predicate body `hostKeyAccepted`), auth resolution (`resolveAuthConfig`),
  working-directory rewriting (`applyCwd`) and `SshTransport.execute`
  (`sshExecute`).  File system, environment, subprocess output and the ssh2
  channel are abstracted into an explicit `SshWorld`; the side effects the
  transport performs are recorded in order as a `List SshEffect`.
* `src/config/schema.ts` — field validation and normalisation (`hostConfigValid`,
  `normalizeHost`, `coerceConfig`).
* `src/services/command-service.ts` — the push-to-pull bridge (`ChunkQueue`) and
  the orchestrator `CommandService.runCommand` (`runCommandModel`), which is an
  async generator in the source and is modelled as a function from the request,
  the registry snapshot, and the behaviour of the injected transport
  (`TransportBehavior`: the chunks it pushes into the collector, in order, and
  the settlement of its promise) to the invocation trace (`OrchTrace`): the
  hook/telemetry events, the values yielded to the consumer, and the error the
  generator propagates, if any.

Modelling notes.  JavaScript timestamps (`Date`) are abstracted to `Nat`;
`durationMs` is an abstract `elapsedMs` of the world.  The single sequential
consumer of the bridge is modelled by `ChunkQueue.next` returning `wait` when it
would suspend; a producer push that resolves a suspended consumer delivers the
same item, in the same order, as the consumer re-reading the buffer, because a
consumer can only be suspended when the buffer is empty.  All chunks are pushed
by ssh2 stream data events before the exec promise settles, and the queue is
closed only when that promise settles, so the sequential trace model delivers
exactly the pushed chunks before the terminal item.
-/

set_option maxHeartbeats 1000000

/-- Error codes of `RemoteTransportError` (src/transport/remote-transport.ts). -/
inductive ErrorCode
  | auth
  | connection
  | execution
  | timeout
  | config
  deriving DecidableEq, Repr

/-- `RemoteTransportError`: a code plus a message. -/
structure TransportError where
  code : ErrorCode
  msg : String
  deriving DecidableEq, Repr

/-- Channel tag of a stream chunk. -/
inductive ChunkType
  | stdout
  | stderr
  deriving DecidableEq, Repr

/-- `AuthConfig` tagged union (src/config/types.ts). -/
inductive AuthConfig
  | sshKey (privateKeyPath : String) (passphrasePrompt : Option Bool)
  | sshAgent (agentSocketPath : Option String)
  | credentialCommand (credentialCommand : String)
  deriving DecidableEq, Repr

/-- `HostConnectionOptions` (src/config/types.ts). -/
structure HostConnectionOptions where
  keepAliveIntervalMs : Option Nat := none
  maxPoolSize : Option Nat := none
  deriving DecidableEq, Repr

/-- `HostConfig` (src/config/types.ts).  Optional fields are `Option`. -/
structure HostConfig where
  aliasName : String
  host : String
  port : Option Nat := none
  username : String
  auth : AuthConfig
  defaultShell : Option String := none
  workingDirectory : Option String := none
  knownHostsPath : Option String := none
  strictHostKeyChecking : Option Bool := none
  connection : Option HostConnectionOptions := none
  deriving DecidableEq, Repr

/-- `RemoteServerConfig` (src/config/types.ts): the registry snapshot. -/
structure RemoteServerConfig where
  hosts : List HostConfig
  deriving DecidableEq, Repr

/-- `KnownHostEntry` (src/transport/ssh.ts): hostname patterns plus base64 key. -/
structure KnownHostEntry where
  hostnames : List String
  key : String
  deriving DecidableEq, Repr

/-- JavaScript whitespace characters relevant inside one line, for `split(/\s+/)`. -/
def jsIsSpace (c : Char) : Bool :=
  c == ' ' || c == '\t' || c == '\n' || c == '\r' || c == Char.ofNat 11 || c == Char.ofNat 12

/-- One iteration of the parse loop of `loadKnownHostsEntries`: returns the entry
a line contributes, or `none` when the line is skipped (blank, comment,
cert-authority marker, hashed entry, or fewer than three fields). -/
def parseKnownHostsLine (line : String) : Option KnownHostEntry :=
  let trimmed := line.trim
  if trimmed = "" then none
  else if trimmed.startsWith "#" then none
  else if trimmed.startsWith "@" then none
  else if trimmed.startsWith "|" then none
  else
    let parts := (trimmed.split jsIsSpace).filter (fun p => p ≠ "")
    if parts.length < 3 then none
    else
      let hostList := parts.getD 0 ""
      let key := parts.getD 2 ""
      if hostList = "" then none
      else if key = "" then none
      else some { hostnames := hostList.splitOn ",", key := key }

/-- The parsing part of `loadKnownHostsEntries`, over the raw file contents.
The source splits on `/\r?\n/`; splitting on the newline character alone is
equivalent because every line is trimmed before use. -/
def loadKnownHostsParse (raw : String) : List KnownHostEntry :=
  (raw.split (fun c => c == '\n')).filterMap parseKnownHostsLine

/-- The standard base64 alphabet. -/
def base64Alphabet : String :=
  "ABCDEFGHIJKLMNOPQRSTUVWXYZabcdefghijklmnopqrstuvwxyz0123456789+/"

/-- Character of the base64 alphabet at an index. -/
def base64Char (n : Nat) : Char := base64Alphabet.toList.getD n (Char.ofNat 61)

/-- Base64 of a byte sequence, modelling `Buffer.toString(base64)` on the
presented host key. -/
def base64Encode : List Nat → String
  | [] => ""
  | [a] =>
      let x := a % 256
      String.mk [base64Char (x / 4), base64Char (x % 4 * 16), '=', '=']
  | [a, b] =>
      let x := a % 256
      let y := b % 256
      String.mk [base64Char (x / 4), base64Char (x % 4 * 16 + y / 16),
        base64Char (y % 16 * 4), '=']
  | a :: b :: c :: rest =>
      let x := a % 256
      let y := b % 256
      let z := c % 256
      String.mk [base64Char (x / 4), base64Char (x % 4 * 16 + y / 16),
        base64Char (y % 16 * 4 + z / 64), base64Char (z % 64)] ++ base64Encode rest

/-- First-occurrence deduplication, modelling insertion into a JavaScript `Set`
(which preserves insertion order) followed by `Array.from`. -/
def dedupFirst : List String → List String → List String
  | _, [] => []
  | seen, x :: xs =>
      if x ∈ seen then dedupFirst seen xs else x :: dedupFirst (x :: seen) xs

/-- `buildHostCandidates` (src/transport/ssh.ts): bare address, address:port,
bracketed address:port, and the alias; deduplicated, empty strings dropped
(the `.filter(Boolean)` of the source). -/
def buildHostCandidates (host : HostConfig) : List String :=
  let hostname := host.host
  let port := host.port.getD 22
  (dedupFirst []
    [hostname, hostname ++ ":" ++ toString port,
     "[" ++ hostname ++ "]:" ++ toString port, host.aliasName]).filter (fun c => c != "")

/-- Body of the closure returned by `createHostVerifier`: some entry matches a
candidate name and carries the presented key. -/
def hostKeyAccepted (entries : List KnownHostEntry) (candidates : List String)
    (keyBytes : List Nat) : Bool :=
  let base64 := base64Encode keyBytes
  entries.any (fun entry =>
    if ¬ (entry.hostnames.any (fun name => candidates.contains name)) then false
    else entry.key == base64)

/-- Side effects performed by `SshTransport.execute`, in order. -/
inductive SshEffect
  | readKeyFile (path : String)
  | runCredentialCommand (cmd : String)
  | readKnownHosts (path : String)
  | connectAttempt
  | openExecChannel (cmd : String)
  | startTimer (ms : Nat)
  deriving DecidableEq, Repr

/-- Credential material produced by `resolveAuthConfig`. -/
inductive AuthMaterial
  | privateKeyMaterial (privateKey : String) (passphrase : Option String)
  | agentMaterial (agent : String)
  | passwordMaterial (password : String)
  deriving DecidableEq, Repr

/-- A data event of the exec channel, on one of the two output streams. -/
inductive ChannelEvent
  | outData (data : String)
  | errData (data : String)
  deriving DecidableEq, Repr

/-- How the exec channel ends: the exec callback fails, the channel closes with
an exit code before the timer fires, the stream errors, or the channel stays
open until the timeout timer fires and forcibly closes it. -/
inductive ChannelEnd
  | openError (msg : String)
  | closes (code : Option Int)
  | streamError (msg : String)
  | hangsUntilTimeout
  deriving DecidableEq, Repr

/-- Behaviour of the exec channel: data events in arrival order, then its end. -/
structure ChannelBehavior where
  events : List ChannelEvent
  ending : ChannelEnd
  deriving DecidableEq, Repr

/-- The ambient world `SshTransport.execute` interacts with: file contents by
path, environment variables, credential-command standard output, the home
directory, whether the TCP/ssh handshake succeeds, the exec channel behaviour,
and the observed elapsed time. -/
structure SshWorld where
  files : List (String × String)
  env : List (String × String)
  commandStdout : List (String × String)
  home : String
  connectOk : Bool
  channel : ChannelBehavior
  elapsedMs : Nat
  deriving DecidableEq, Repr

/-- File lookup; `none` models a missing file (ENOENT). -/
def lookupFile (w : SshWorld) (p : String) : Option String := w.files.lookup p

/-- Environment variable lookup. -/
def lookupEnv (w : SshWorld) (name : String) : Option String := w.env.lookup name

/-- Name of the per-alias passphrase environment variable. -/
def passphraseEnvName (host : HostConfig) : String :=
  "REMOTE_SERVER_MCP_PASSPHRASE_" ++ host.aliasName.toUpper

/-- `resolveAuthConfig` (src/transport/ssh.ts), with its side effects recorded.
Failures carry code `auth` (its own throws use code `auth`; a failing key-file
read is wrapped by `enrichError(err, auth, alias)`). -/
def resolveAuthConfig (w : SshWorld) (host : HostConfig) :
    List SshEffect × Except TransportError AuthMaterial :=
  match host.auth with
  | .sshKey privateKeyPath passphrasePrompt =>
      match lookupFile w privateKeyPath with
      | none =>
          ([.readKeyFile privateKeyPath],
           .error ⟨.auth,
             "no such file or directory " ++ privateKeyPath ++ " (host: " ++ host.aliasName ++ ")"⟩)
      | some privateKey =>
          let passphrase :=
            if passphrasePrompt = some true then lookupEnv w (passphraseEnvName host) else none
          ([.readKeyFile privateKeyPath], .ok (.privateKeyMaterial privateKey passphrase))
  | .sshAgent agentSocketPath =>
      match agentSocketPath.orElse (fun _ => lookupEnv w "SSH_AUTH_SOCK") with
      | none =>
          ([], .error ⟨.auth,
            "SSH agent authentication requested for " ++ host.aliasName ++
              " but no agent socket is available"⟩)
      | some agent => ([], .ok (.agentMaterial agent))
  | .credentialCommand credentialCommand =>
      match w.commandStdout.lookup credentialCommand with
      | none =>
          ([.runCredentialCommand credentialCommand],
           .error ⟨.auth, "credential command failed (host: " ++ host.aliasName ++ ")"⟩)
      | some out =>
          let password := out.trim
          if password = "" then
            ([.runCredentialCommand credentialCommand],
             .error ⟨.auth,
               "Credential command for " ++ host.aliasName ++ " returned empty output"⟩)
          else ([.runCredentialCommand credentialCommand], .ok (.passwordMaterial password))

/-- `resolveKnownHostsPath`: explicit path, else `~/.ssh/known_hosts`. -/
def resolveKnownHostsPath (w : SshWorld) (host : HostConfig) : String :=
  match host.knownHostsPath with
  | some p => p
  | none => w.home ++ "/.ssh/known_hosts"

/-- `loadKnownHostsEntries` (src/transport/ssh.ts): missing file is a `config`
error, otherwise the parsed entries. -/
def loadKnownHostsEntries (w : SshWorld) (filePath : String) :
    Except TransportError (List KnownHostEntry) :=
  match lookupFile w filePath with
  | none =>
      .error ⟨.config,
        "Known hosts file not found at " ++ filePath ++
          ". Provide a valid path or disable strictHostKeyChecking."⟩
  | some raw => .ok (loadKnownHostsParse raw)

/-- Data captured by the verifier closure returned by `createHostVerifier`. -/
structure HostVerifierData where
  entries : List KnownHostEntry
  candidates : List String
  deriving DecidableEq, Repr

/-- `createHostVerifier` (src/transport/ssh.ts): skip when strict checking is
exactly `false`; otherwise load entries (a missing store or zero usable entries
is a `config` error) and capture entries plus candidates for the predicate. -/
def createHostVerifier (w : SshWorld) (host : HostConfig) :
    List SshEffect × Except TransportError (Option HostVerifierData) :=
  if host.strictHostKeyChecking = some false then ([], .ok none)
  else
    let knownHostsPath := resolveKnownHostsPath w host
    match loadKnownHostsEntries w knownHostsPath with
    | .error e => ([.readKnownHosts knownHostsPath], .error e)
    | .ok entries =>
        if entries = [] then
          ([.readKnownHosts knownHostsPath],
           .error ⟨.config,
             "No entries found in known hosts file " ++ knownHostsPath ++
               "; cannot verify " ++ host.aliasName ++ "."⟩)
        else ([.readKnownHosts knownHostsPath], .ok (some ⟨entries, buildHostCandidates host⟩))

/-- The single-quote character, written by code point to keep source lines plain. -/
def squote : Char := Char.ofNat 39

/-- The backslash character. -/
def backslashChar : Char := Char.ofNat 92

/-- Single-quote as a string. -/
def squoteS : String := String.singleton squote

/-- The replacement of one single quote inside `applyCwd`: quote, backslash,
quote, quote (the JavaScript replacement string of `replace(/\x27/g, ...)`). -/
def escapeSingleQuotesList : List Char → List Char
  | [] => []
  | c :: rest =>
      if c = squote then
        squote :: backslashChar :: squote :: squote :: escapeSingleQuotesList rest
      else c :: escapeSingleQuotesList rest

/-- String form of the escaping applied to the working directory. -/
def escapeSingleQuotes (s : String) : String := String.mk (escapeSingleQuotesList s.data)

/-- `applyCwd` (src/transport/ssh.ts).  The source guard `if (!cwd)` treats both
an absent and an empty-string working directory as no override. -/
def applyCwd (command : String) (cwd : Option String) : String :=
  match cwd with
  | none => command
  | some d =>
      if d = "" then command
      else "cd " ++ squoteS ++ escapeSingleQuotes d ++ squoteS ++ " && " ++ command

/-- POSIX-shell single-quote reader used to state that the rewritten command
cannot escape the quoted scope: outside quotes only a quote (entering a quoted
run) or a backslash-escaped character is accepted, any other bare character is
rejected; inside quotes a quote ends the run and every other character is
literal.  Returns the literal text when the input is fully consumed in a
balanced state. -/
def sqParse : Bool → List Char → Option (List Char)
  | false, [] => some []
  | true, [] => none
  | false, c :: rest =>
      if c = squote then sqParse true rest
      else if c = backslashChar then
        match rest with
        | [] => none
        | c2 :: rest2 => (sqParse false rest2).map (fun l => c2 :: l)
      else none
  | true, c :: rest =>
      if c = squote then sqParse false rest
      else (sqParse true rest).map (fun l => c :: l)

/-- Per-invocation execution options (src/transport/types.ts). -/
structure ExecOptions where
  timeoutMs : Option Nat := none
  stream : Option Bool := none
  cwd : Option String := none
  env : Option (List (String × String)) := none
  deriving DecidableEq, Repr

/-- `CommandExecutionContext` (src/transport/types.ts). -/
structure CommandExecutionContext where
  host : HostConfig
  command : String
  options : ExecOptions
  deriving DecidableEq, Repr

/-- `CommandExecutionResult` (src/transport/types.ts). -/
structure CommandExecutionResult where
  exitCode : Option Int
  stdout : String
  stderr : String
  timedOut : Bool
  durationMs : Nat
  deriving DecidableEq, Repr

/-- Accumulated standard output of the channel events. -/
def channelStdout (events : List ChannelEvent) : String :=
  String.join (events.filterMap (fun e =>
    match e with
    | .outData d => some d
    | _ => none))

/-- Accumulated standard error of the channel events. -/
def channelStderr (events : List ChannelEvent) : String :=
  String.join (events.filterMap (fun e =>
    match e with
    | .errData d => some d
    | _ => none))

/-- `SshTransport.execute` (src/transport/ssh.ts) as a function from the world
and the context to the ordered side effects and the settlement of its promise.
Order follows the source: resolve auth material, build the verifier, connect,
rewrite the command with `applyCwd`, open the exec channel, start the timeout
timer, then settle according to the channel behaviour.  A timer that fires
before the channel closes yields a successful result with a null exit code and
the timed-out flag set. -/
def sshExecute (w : SshWorld) (ctx : CommandExecutionContext) :
    List SshEffect × Except TransportError CommandExecutionResult :=
  let timeoutMs := ctx.options.timeoutMs.getD 60000
  match resolveAuthConfig w ctx.host with
  | (authEffects, .error e) => (authEffects, .error e)
  | (authEffects, .ok _material) =>
    match createHostVerifier w ctx.host with
    | (verifierEffects, .error e) => (authEffects ++ verifierEffects, .error e)
    | (verifierEffects, .ok _verifier) =>
      let connected := authEffects ++ verifierEffects ++ [SshEffect.connectAttempt]
      if w.connectOk = false then
        (connected, .error ⟨.connection, "connection failed (host: " ++ ctx.host.aliasName ++ ")"⟩)
      else
        let execCommand :=
          applyCwd ctx.command (ctx.options.cwd.orElse (fun _ => ctx.host.workingDirectory))
        let opened := connected ++ [SshEffect.openExecChannel execCommand]
        match w.channel.ending with
        | .openError m =>
            (opened, .error ⟨.execution, m ++ " (host: " ++ ctx.host.aliasName ++ ")"⟩)
        | .closes code =>
            (opened ++ [SshEffect.startTimer timeoutMs],
             .ok ⟨code, channelStdout w.channel.events, channelStderr w.channel.events,
               false, w.elapsedMs⟩)
        | .streamError m =>
            (opened ++ [SshEffect.startTimer timeoutMs],
             .error ⟨.execution, m ++ " (host: " ++ ctx.host.aliasName ++ ")"⟩)
        | .hangsUntilTimeout =>
            (opened ++ [SshEffect.startTimer timeoutMs],
             .ok ⟨none, channelStdout w.channel.events, channelStderr w.channel.events,
               true, w.elapsedMs⟩)

/-- Validity of an `AuthConfig` per the zod schemas of src/config/schema.ts. -/
def authConfigValid : AuthConfig → Bool
  | .sshKey p _ => p.length ≥ 1
  | .sshAgent s =>
      match s with
      | none => true
      | some v => v.length ≥ 1
  | .credentialCommand c => c.length ≥ 1

/-- Validity of `HostConnectionOptions` per src/config/schema.ts. -/
def hostConnectionOptionsValid (o : HostConnectionOptions) : Bool :=
  (match o.keepAliveIntervalMs with
   | none => true
   | some v => 0 < v) &&
  (match o.maxPoolSize with
   | none => true
   | some v => 0 < v)

/-- `z.string().min(1).optional()` on an optional string field. -/
def optStringValid : Option String → Bool
  | none => true
  | some s => s.length ≥ 1

/-- `hostConfigSchema` (src/config/schema.ts) over the typed host value. -/
def hostConfigValid (h : HostConfig) : Bool :=
  h.aliasName.length ≥ 1 && h.host.length ≥ 1 &&
  (match h.port with
   | none => true
   | some p => 1 ≤ p && p ≤ 65535) &&
  h.username.length ≥ 1 && authConfigValid h.auth &&
  optStringValid h.defaultShell && optStringValid h.workingDirectory &&
  optStringValid h.knownHostsPath &&
  (match h.connection with
   | none => true
   | some c => hostConnectionOptionsValid c)

/-- The normalisation `coerceConfig` applies per host: default port 22 and
default `strictHostKeyChecking` false. -/
def normalizeHost (h : HostConfig) : HostConfig :=
  { h with port := some (h.port.getD 22),
           strictHostKeyChecking := some (h.strictHostKeyChecking.getD false) }

/-- `coerceConfig` (src/config/schema.ts): validate every host and the
nonemptiness of the list, then normalise. -/
def coerceConfig (c : RemoteServerConfig) : Except String RemoteServerConfig :=
  if c.hosts = [] then .error "Invalid remote-server-mcp configuration"
  else if c.hosts.all hostConfigValid = false then
    .error "Invalid remote-server-mcp configuration"
  else .ok { hosts := c.hosts.map normalizeHost }

/-- State of the `ChunkQueue` bridge (src/services/command-service.ts):
buffered items in push order, whether a consumer is suspended in `next`, and
whether the queue is closed. -/
structure ChunkQueue (T : Type) where
  queue : List T
  pending : Bool
  closed : Bool
  deriving DecidableEq, Repr

/-- A freshly constructed queue. -/
def ChunkQueue.emptyQueue {T : Type} : ChunkQueue T := ⟨[], false, false⟩

/-- `ChunkQueue.push`: a no-op after close; resolves a suspended consumer
directly with the item (returned as the second component) or buffers it. -/
def ChunkQueue.push {T : Type} (s : ChunkQueue T) (v : T) : ChunkQueue T × Option T :=
  if s.closed then (s, none)
  else if s.pending then ({ s with pending := false }, some v)
  else ({ s with queue := s.queue ++ [v] }, none)

/-- `ChunkQueue.close`: idempotent; resolves a suspended consumer with done. -/
def ChunkQueue.close {T : Type} (s : ChunkQueue T) : ChunkQueue T :=
  if s.closed then s else { s with pending := false, closed := true }

/-- What one `next()` call observes. -/
inductive NextOutcome (T : Type)
  | item (v : T)
  | done
  | wait
  deriving DecidableEq, Repr

/-- `ChunkQueue.next`: a buffered item is returned even after close; an empty
closed queue reports done; otherwise the consumer suspends. -/
def ChunkQueue.next {T : Type} (s : ChunkQueue T) : ChunkQueue T × NextOutcome T :=
  match s.queue with
  | v :: rest => ({ s with queue := rest }, .item v)
  | [] =>
      if s.closed then (s, .done)
      else ({ s with pending := true }, .wait)

/-- Push a list of items in order. -/
def ChunkQueue.pushAll {T : Type} (s : ChunkQueue T) (xs : List T) : ChunkQueue T :=
  xs.foldl (fun acc v => (acc.push v).1) s

/-- Call `next` up to a fuel bound, collecting delivered items; the Boolean
records whether done was observed. -/
def ChunkQueue.drainN {T : Type} : Nat → ChunkQueue T → List T × Bool
  | 0, _ => ([], false)
  | Nat.succ n, s =>
      match s.next with
      | (s2, .item v) =>
          let r := ChunkQueue.drainN n s2
          (v :: r.1, r.2)
      | (_, .done) => ([], true)
      | (_, .wait) => ([], false)

/-- `runCommandRequestSchema` fields (src/services/command-service.ts). -/
structure RunCommandRequest where
  hostAlias : String
  command : String
  timeoutMs : Option Nat := none
  stream : Option Bool := none
  cwd : Option String := none
  env : Option (List (String × String)) := none
  deriving DecidableEq, Repr

/-- `runCommandRequestSchema.safeParse` success over the typed request value:
nonempty alias, nonempty command, positive integer timeout when present. -/
def validRequest (r : RunCommandRequest) : Bool :=
  r.hostAlias.length ≥ 1 && r.command.length ≥ 1 &&
  (match r.timeoutMs with
   | none => true
   | some t => 0 < t)

/-- `CommandStreamChunk` (src/transport/types.ts) with an abstract timestamp. -/
structure CommandStreamChunk where
  type : ChunkType
  data : String
  receivedAt : Nat
  deriving DecidableEq, Repr

/-- `StreamChunkResponse` (src/services/command-service.ts): timestamp rendered
to a string. -/
structure StreamChunkResponse where
  type : ChunkType
  data : String
  receivedAt : String
  deriving DecidableEq, Repr

/-- Abstract `Date.toISOString`, injective on the abstract timestamps. -/
def isoString (t : Nat) : String := toString t

/-- The mapping the orchestrator sink applies before `queue.push`. -/
def toChunkResponse (c : CommandStreamChunk) : StreamChunkResponse :=
  ⟨c.type, c.data, isoString c.receivedAt⟩

deriving instance DecidableEq for Except

/-- Behaviour of the injected transport for one invocation: the chunks it pushes
into the collector, in order, and how its promise settles. -/
structure TransportBehavior where
  chunks : List CommandStreamChunk
  outcome : Except TransportError CommandExecutionResult
  deriving DecidableEq, Repr

/-- Hook and telemetry calls the orchestrator makes, in order. -/
inductive OrchEvent
  | hookBefore
  | telemetryStart
  | transportExecute
  | telemetryChunk (c : CommandStreamChunk)
  | hookAfter (r : CommandExecutionResult)
  | telemetryResult (r : CommandExecutionResult)
  | hookError (e : TransportError)
  | telemetryError (e : TransportError)
  deriving DecidableEq, Repr

/-- An item of the generator output sequence. -/
inductive OrchOutput
  | chunk (c : StreamChunkResponse)
  | result (r : CommandExecutionResult)
  deriving DecidableEq, Repr

/-- Observable trace of one `runCommand` invocation: collaborator calls, items
yielded to the consumer, and the propagated error, if any. -/
structure OrchTrace where
  events : List OrchEvent
  yields : List OrchOutput
  thrown : Option TransportError
  deriving DecidableEq, Repr

/-- `CommandService.findHost`: resolve the alias in the registry snapshot. -/
def findHost (cfg : RemoteServerConfig) (aliasStr : String) : Option HostConfig :=
  cfg.hosts.find? (fun entry => entry.aliasName == aliasStr)

/-- The chunks a streaming consumer receives: the pushed chunks are buffered in
the bridge, the bridge is closed when the transport settles, and the drain loop
of `runCommand` pulls until done. -/
def drainClosedQueue (pushed : List StreamChunkResponse) : List StreamChunkResponse :=
  (ChunkQueue.drainN (pushed.length + 1)
    ((ChunkQueue.pushAll ChunkQueue.emptyQueue pushed).close)).1

/-- `CommandService.runCommand` (src/services/command-service.ts).  Validation
and alias resolution happen before any hook or transport activity; then the
before-hook and start telemetry fire, the transport is invoked with a collector
that logs every chunk to telemetry and, when streaming was requested, also
pushes it into a fresh `ChunkQueue`; when the transport settles the queue is
closed, the streaming drain loop finishes, and either the after-hook and result
telemetry run before the final result is yielded, or the error hook and error
telemetry run before the error is rethrown. -/
def runCommandModel (cfg : RemoteServerConfig) (req : RunCommandRequest)
    (b : TransportBehavior) : OrchTrace :=
  if validRequest req = false then
    { events := [], yields := [],
      thrown := some ⟨.config, "Invalid runCommand request"⟩ }
  else
    match findHost cfg req.hostAlias with
    | none =>
        { events := [], yields := [],
          thrown := some ⟨.config,
            "Host alias " ++ squoteS ++ req.hostAlias ++ squoteS ++
              " not found in configuration"⟩ }
    | some _host =>
        let preEvents := [OrchEvent.hookBefore, OrchEvent.telemetryStart,
          OrchEvent.transportExecute]
        let chunkEvents := b.chunks.map OrchEvent.telemetryChunk
        let delivered :=
          if req.stream = some true then drainClosedQueue (b.chunks.map toChunkResponse)
          else []
        match b.outcome with
        | .ok r =>
            { events := preEvents ++ chunkEvents ++
                [OrchEvent.hookAfter r, OrchEvent.telemetryResult r],
              yields := delivered.map OrchOutput.chunk ++ [OrchOutput.result r],
              thrown := none }
        | .error e =>
            { events := preEvents ++ chunkEvents ++
                [OrchEvent.hookError e, OrchEvent.telemetryError e],
              yields := delivered.map OrchOutput.chunk,
              thrown := some e }

/-! ## Queue lemmas -/

theorem chunkQueue_pushAll_open {T : Type} (xs q : List T) :
    ChunkQueue.pushAll (ChunkQueue.mk q false false) xs = ChunkQueue.mk (q ++ xs) false false := by
  induction xs generalizing q with
  | nil => simp [ChunkQueue.pushAll]
  | cons x t ih =>
      have h : ChunkQueue.pushAll (ChunkQueue.mk q false false) (x :: t)
          = ChunkQueue.pushAll (ChunkQueue.mk (q ++ [x]) false false) t := by
        simp [ChunkQueue.pushAll, ChunkQueue.push]
      rw [h, ih]
      simp

theorem chunkQueue_drain_closed {T : Type} (l : List T) :
    ChunkQueue.drainN (l.length + 1) (ChunkQueue.mk l false true) = (l, true) := by
  induction l with
  | nil => simp [ChunkQueue.drainN, ChunkQueue.next]
  | cons x t ih =>
      have hstep : ChunkQueue.drainN ((x :: t).length + 1) (ChunkQueue.mk (x :: t) false true)
          = (x :: (ChunkQueue.drainN (t.length + 1) (ChunkQueue.mk t false true)).1,
             (ChunkQueue.drainN (t.length + 1) (ChunkQueue.mk t false true)).2) := rfl
      rw [hstep, ih]

theorem chunkQueue_fifo_drain {T : Type} (xs : List T) :
    ChunkQueue.drainN (xs.length + 1)
      ((ChunkQueue.pushAll ChunkQueue.emptyQueue xs).close) = (xs, true) := by
  have he : (ChunkQueue.emptyQueue : ChunkQueue T) = ChunkQueue.mk [] false false := rfl
  rw [he, chunkQueue_pushAll_open]
  have hc : (ChunkQueue.mk ([] ++ xs) false false).close = ChunkQueue.mk xs false true := by
    simp [ChunkQueue.close]
  rw [hc, chunkQueue_drain_closed]

theorem drainClosedQueue_eq (pushed : List StreamChunkResponse) :
    drainClosedQueue pushed = pushed := by
  unfold drainClosedQueue
  rw [chunkQueue_fifo_drain]

/-! ## Event and output discriminators -/

/-- Is the event an after-hook invocation. -/
def isHookAfterEvent : OrchEvent → Bool
  | .hookAfter _ => true
  | _ => false

/-- Is the event a result-telemetry call. -/
def isTelemetryResultEvent : OrchEvent → Bool
  | .telemetryResult _ => true
  | _ => false

/-- Is the event an error-hook invocation. -/
def isHookErrorEvent : OrchEvent → Bool
  | .hookError _ => true
  | _ => false

/-- Is the event an error-telemetry call. -/
def isTelemetryErrorEvent : OrchEvent → Bool
  | .telemetryError _ => true
  | _ => false

/-- Is the output item the final execution result. -/
def isResultOutput : OrchOutput → Bool
  | .result _ => true
  | _ => false

theorem countP_map_chunkEvents (p : OrchEvent → Bool)
    (hp : ∀ c, p (OrchEvent.telemetryChunk c) = false) (l : List CommandStreamChunk) :
    (l.map OrchEvent.telemetryChunk).countP p = 0 := by
  induction l with
  | nil => rfl
  | cons c t ih => simp [List.countP_cons, hp, ih]

theorem countP_chunk_hookAfter (l : List CommandStreamChunk) :
    (l.map OrchEvent.telemetryChunk).countP isHookAfterEvent = 0 :=
  countP_map_chunkEvents _ (fun _ => rfl) l

theorem countP_chunk_telemetryResult (l : List CommandStreamChunk) :
    (l.map OrchEvent.telemetryChunk).countP isTelemetryResultEvent = 0 :=
  countP_map_chunkEvents _ (fun _ => rfl) l

theorem countP_chunk_hookError (l : List CommandStreamChunk) :
    (l.map OrchEvent.telemetryChunk).countP isHookErrorEvent = 0 :=
  countP_map_chunkEvents _ (fun _ => rfl) l

theorem countP_chunk_telemetryError (l : List CommandStreamChunk) :
    (l.map OrchEvent.telemetryChunk).countP isTelemetryErrorEvent = 0 :=
  countP_map_chunkEvents _ (fun _ => rfl) l

theorem countP_map_chunkOutputs (l : List StreamChunkResponse) :
    (l.map OrchOutput.chunk).countP isResultOutput = 0 := by
  induction l with
  | nil => rfl
  | cons c t ih => simp [List.countP_cons, isResultOutput, ih]

/-! ## Concrete fixtures for closed evaluations -/

/-- Fixture host. -/
def hostW : HostConfig :=
  { aliasName := "w", host := "h", username := "u",
    auth := AuthConfig.sshAgent (some "/sock") }

/-- Fixture registry holding only `hostW`. -/
def cfgW : RemoteServerConfig := ⟨[hostW]⟩

/-- Fixture successful result. -/
def resultW : CommandExecutionResult := ⟨some 0, "hi", "", false, 5⟩

/-- Fixture streaming request against the known alias. -/
def reqW : RunCommandRequest := { hostAlias := "w", command := "ls", stream := some true }

/-- Fixture request naming an alias absent from `cfgW`. -/
def reqMissing : RunCommandRequest := { hostAlias := "missing", command := "ls" }

/-- Fixture transport behaviour: one chunk, then success. -/
def behW : TransportBehavior := ⟨[⟨ChunkType.stdout, "hi", 3⟩], Except.ok resultW⟩

/-- Fixture transport behaviour: one chunk, then an execution error. -/
def behErr : TransportBehavior :=
  ⟨[⟨ChunkType.stdout, "partial", 3⟩], Except.error ⟨ErrorCode.execution, "boom"⟩⟩

/-! ## C10 -/

/-- C10: the streaming bridge retains buffered items across `close()`: every
item pushed before close is still in the buffer after close, subsequent
`next()` calls return all of them in push (FIFO) order, and done is reported
only after the buffer is fully drained. -/
theorem chunkQueue_retains_across_close {T : Type} (xs : List T) :
    ((ChunkQueue.pushAll ChunkQueue.emptyQueue xs).close).queue = xs
    ∧ ChunkQueue.drainN (xs.length + 1)
        ((ChunkQueue.pushAll ChunkQueue.emptyQueue xs).close) = (xs, true) := by
  constructor
  · have he : (ChunkQueue.emptyQueue : ChunkQueue T) = ChunkQueue.mk [] false false := rfl
    rw [he, chunkQueue_pushAll_open]
    simp [ChunkQueue.close]
  · exact chunkQueue_fifo_drain xs

/-! ## C1 -/

/-- C1: for every valid runCommand request the invocation trace either ends
with no propagated error, exactly one Execution Result among the yielded items,
and that result as the last item, or it propagates exactly one error and
yields no result — never both, never neither. -/
theorem runCommand_exactly_one_terminal
    (cfg : RemoteServerConfig) (req : RunCommandRequest) (b : TransportBehavior)
    (hv : validRequest req = true) :
    ((runCommandModel cfg req b).thrown = none
      ∧ (runCommandModel cfg req b).yields.countP isResultOutput = 1
      ∧ ∃ r, (runCommandModel cfg req b).yields.getLast? = some (OrchOutput.result r))
    ∨ (∃ e, (runCommandModel cfg req b).thrown = some e
      ∧ (runCommandModel cfg req b).yields.countP isResultOutput = 0) := by
  unfold runCommandModel
  rw [hv]
  simp only [Bool.true_eq_false, if_false]
  cases hfind : findHost cfg req.hostAlias with
  | none => exact Or.inr ⟨_, rfl, rfl⟩
  | some host =>
      cases hout : b.outcome with
      | ok r =>
          refine Or.inl ⟨rfl, ?_, ⟨r, List.getLast?_concat _⟩⟩
          simp [List.countP_append, countP_map_chunkOutputs, List.countP_cons, isResultOutput]
      | error e =>
          refine Or.inr ⟨e, rfl, ?_⟩
          exact countP_map_chunkOutputs _

/-- Witness for C1 at a concrete streaming invocation. -/
theorem runCommand_exactly_one_terminal_witness :
    validRequest reqW = true
    ∧ (((runCommandModel cfgW reqW behW).thrown = none
        ∧ (runCommandModel cfgW reqW behW).yields.countP isResultOutput = 1
        ∧ ∃ r, (runCommandModel cfgW reqW behW).yields.getLast? = some (OrchOutput.result r))
      ∨ (∃ e, (runCommandModel cfgW reqW behW).thrown = some e
        ∧ (runCommandModel cfgW reqW behW).yields.countP isResultOutput = 0)) :=
  ⟨by decide, runCommand_exactly_one_terminal cfgW reqW behW (by decide)⟩

/-! ## C2 -/

/-- C2: for every streaming request, the yielded sequence is some chunks
followed (on success) by the terminal result, so every chunk precedes the
result in delivery order; and when the transport fails after pushing chunks
into the bridge, the consumer still receives every pushed chunk before the
error propagates. -/
theorem runCommand_stream_delivery
    (cfg : RemoteServerConfig) (req : RunCommandRequest) (b : TransportBehavior)
    (hv : validRequest req = true) (hs : req.stream = some true) :
    ((runCommandModel cfg req b).thrown = none →
      ∃ cs r, (runCommandModel cfg req b).yields
        = List.map OrchOutput.chunk cs ++ [OrchOutput.result r])
    ∧ ((runCommandModel cfg req b).thrown ≠ none →
      ∃ cs, (runCommandModel cfg req b).yields = List.map OrchOutput.chunk cs)
    ∧ (∀ host e, findHost cfg req.hostAlias = some host →
        (runCommandModel cfg req b).thrown = some e →
        (runCommandModel cfg req b).yields
          = List.map OrchOutput.chunk (List.map toChunkResponse b.chunks)) := by
  unfold runCommandModel
  rw [hv]
  simp only [Bool.true_eq_false, if_false, hs]
  cases hfind : findHost cfg req.hostAlias with
  | none =>
      refine ⟨fun h => absurd h (by simp), fun _ => ⟨[], rfl⟩, fun host e hsome _ => ?_⟩
      cases hsome
  | some host =>
      cases hout : b.outcome with
      | ok r =>
          refine ⟨fun _ => ⟨drainClosedQueue (List.map toChunkResponse b.chunks), r, by simp⟩,
            fun h => absurd rfl h, fun host2 e _ habs => by simp at habs⟩
      | error e =>
          refine ⟨fun h => by simp at h,
            fun _ => ⟨drainClosedQueue (List.map toChunkResponse b.chunks), by simp⟩,
            fun host2 e2 _ _ => ?_⟩
          simp [drainClosedQueue_eq]

/-- Witness for C2 at a concrete streaming invocation that fails after one
chunk was pushed. -/
theorem runCommand_stream_delivery_witness :
    validRequest reqW = true ∧ reqW.stream = some true
    ∧ (((runCommandModel cfgW reqW behErr).thrown = none →
        ∃ cs r, (runCommandModel cfgW reqW behErr).yields
          = List.map OrchOutput.chunk cs ++ [OrchOutput.result r])
      ∧ ((runCommandModel cfgW reqW behErr).thrown ≠ none →
        ∃ cs, (runCommandModel cfgW reqW behErr).yields = List.map OrchOutput.chunk cs)
      ∧ (∀ host e, findHost cfgW reqW.hostAlias = some host →
          (runCommandModel cfgW reqW behErr).thrown = some e →
          (runCommandModel cfgW reqW behErr).yields
            = List.map OrchOutput.chunk (List.map toChunkResponse behErr.chunks))) :=
  ⟨by decide, by decide, runCommand_stream_delivery cfgW reqW behErr (by decide) (by decide)⟩

/-! ## C3 -/

/-- C3 counterexample: a valid request naming an unknown alias is a failure
path of an invocation (a `config` error propagates to the consumer), yet the
error hook and error telemetry are invoked zero times, not exactly once. -/
theorem runCommand_failure_without_error_hook :
    validRequest reqMissing = true
    ∧ Option.map TransportError.code (runCommandModel cfgW reqMissing behW).thrown
        = some ErrorCode.config
    ∧ (runCommandModel cfgW reqMissing behW).events.countP isHookErrorEvent = 0
    ∧ (runCommandModel cfgW reqMissing behW).events.countP isTelemetryErrorEvent = 0 := by
  decide

/-- C3 as amended: once the request has been validated and the alias resolved,
a failing invocation invokes the error hook and error telemetry exactly once
and the success-side calls zero times, a successful invocation invokes the
after-hook and result telemetry exactly once and the error-side calls zero
times, and no invocation makes both kinds of calls. -/
theorem runCommand_hooks_exactly_once
    (cfg : RemoteServerConfig) (req : RunCommandRequest) (b : TransportBehavior)
    (host : HostConfig) (hv : validRequest req = true)
    (hh : findHost cfg req.hostAlias = some host) :
    ((runCommandModel cfg req b).thrown = none →
        (runCommandModel cfg req b).events.countP isHookAfterEvent = 1
        ∧ (runCommandModel cfg req b).events.countP isTelemetryResultEvent = 1
        ∧ (runCommandModel cfg req b).events.countP isHookErrorEvent = 0
        ∧ (runCommandModel cfg req b).events.countP isTelemetryErrorEvent = 0)
    ∧ (∀ e, (runCommandModel cfg req b).thrown = some e →
        (runCommandModel cfg req b).events.countP isHookErrorEvent = 1
        ∧ (runCommandModel cfg req b).events.countP isTelemetryErrorEvent = 1
        ∧ (runCommandModel cfg req b).events.countP isHookAfterEvent = 0
        ∧ (runCommandModel cfg req b).events.countP isTelemetryResultEvent = 0) := by
  unfold runCommandModel
  rw [hv]
  simp only [Bool.true_eq_false, if_false, hh]
  cases hout : b.outcome with
  | ok r =>
      refine ⟨fun _ => ?_, fun e habs => by simp at habs⟩
      refine ⟨?_, ?_, ?_, ?_⟩ <;>
        simp [List.countP_append, List.countP_cons, countP_chunk_hookAfter,
          countP_chunk_telemetryResult, countP_chunk_hookError, countP_chunk_telemetryError,
          isHookAfterEvent, isTelemetryResultEvent, isHookErrorEvent, isTelemetryErrorEvent]
  | error e =>
      refine ⟨fun habs => by simp at habs, fun e2 _ => ?_⟩
      refine ⟨?_, ?_, ?_, ?_⟩ <;>
        simp [List.countP_append, List.countP_cons, countP_chunk_hookAfter,
          countP_chunk_telemetryResult, countP_chunk_hookError, countP_chunk_telemetryError,
          isHookAfterEvent, isTelemetryResultEvent, isHookErrorEvent, isTelemetryErrorEvent]

/-- Witness for the amended C3 at a concrete resolved invocation. -/
theorem runCommand_hooks_exactly_once_witness :
    validRequest reqW = true ∧ findHost cfgW reqW.hostAlias = some hostW
    ∧ (((runCommandModel cfgW reqW behW).thrown = none →
          (runCommandModel cfgW reqW behW).events.countP isHookAfterEvent = 1
          ∧ (runCommandModel cfgW reqW behW).events.countP isTelemetryResultEvent = 1
          ∧ (runCommandModel cfgW reqW behW).events.countP isHookErrorEvent = 0
          ∧ (runCommandModel cfgW reqW behW).events.countP isTelemetryErrorEvent = 0)
      ∧ (∀ e, (runCommandModel cfgW reqW behW).thrown = some e →
          (runCommandModel cfgW reqW behW).events.countP isHookErrorEvent = 1
          ∧ (runCommandModel cfgW reqW behW).events.countP isTelemetryErrorEvent = 1
          ∧ (runCommandModel cfgW reqW behW).events.countP isHookAfterEvent = 0
          ∧ (runCommandModel cfgW reqW behW).events.countP isTelemetryResultEvent = 0)) :=
  ⟨by decide, by decide,
    runCommand_hooks_exactly_once cfgW reqW behW hostW (by decide) (by decide)⟩

/-! ## C6 -/

/-- C6: a valid request whose alias is not in the registry snapshot fails with
a `config` error, the transport is never invoked, and no hook or telemetry
call of any kind is made. -/
theorem runCommand_unknown_alias
    (cfg : RemoteServerConfig) (req : RunCommandRequest) (b : TransportBehavior)
    (hv : validRequest req = true) (hn : findHost cfg req.hostAlias = none) :
    (∃ e, (runCommandModel cfg req b).thrown = some e ∧ e.code = ErrorCode.config)
    ∧ (runCommandModel cfg req b).events = []
    ∧ (runCommandModel cfg req b).yields = [] := by
  unfold runCommandModel
  rw [hv]
  simp only [Bool.true_eq_false, if_false, hn]
  refine ⟨⟨⟨ErrorCode.config, _⟩, rfl, rfl⟩, trivial, trivial⟩

/-- Witness for C6 at a concrete unknown-alias request. -/
theorem runCommand_unknown_alias_witness :
    validRequest reqMissing = true ∧ findHost cfgW reqMissing.hostAlias = none
    ∧ ((∃ e, (runCommandModel cfgW reqMissing behW).thrown = some e
          ∧ e.code = ErrorCode.config)
      ∧ (runCommandModel cfgW reqMissing behW).events = []
      ∧ (runCommandModel cfgW reqMissing behW).yields = []) :=
  ⟨by decide, by decide, runCommand_unknown_alias cfgW reqMissing behW (by decide) (by decide)⟩

/-! ## Transport lemmas -/

/-- Error code carried by a settled transport call, if it failed. -/
def errorCodeOf {α : Type} : Except TransportError α → Option ErrorCode
  | .error e => some e.code
  | .ok _ => none

theorem resolveAuth_effects_shape (w : SshWorld) (h : HostConfig) :
    (resolveAuthConfig w h).1 = []
    ∨ (∃ p, (resolveAuthConfig w h).1 = [SshEffect.readKeyFile p])
    ∨ (∃ c, (resolveAuthConfig w h).1 = [SshEffect.runCredentialCommand c]) := by
  unfold resolveAuthConfig
  cases hau : h.auth with
  | sshKey kp pp =>
      rcases hf : lookupFile w kp with _ | pk <;> simp [hf]
  | sshAgent sp =>
      rcases ha : sp.orElse (fun _ => lookupEnv w "SSH_AUTH_SOCK") with _ | ag <;> simp [ha]
  | credentialCommand cc =>
      rcases hc : w.commandStdout.lookup cc with _ | out
      · simp [hc]
      · by_cases ht : out.trim = "" <;> simp [hc, ht]

theorem resolveAuth_no_knownHosts (w : SshWorld) (h : HostConfig) (p : String) :
    SshEffect.readKnownHosts p ∉ (resolveAuthConfig w h).1 := by
  rcases resolveAuth_effects_shape w h with hs | ⟨q, hs⟩ | ⟨c, hs⟩ <;> rw [hs] <;> simp

theorem resolveAuth_error_code (w : SshWorld) (h : HostConfig) (e : TransportError)
    (he : (resolveAuthConfig w h).2 = Except.error e) : e.code = ErrorCode.auth := by
  unfold resolveAuthConfig at he
  split at he
  · split at he
    · injection he with h2
      rw [← h2]
    · simp at he
  · split at he
    · injection he with h2
      rw [← h2]
    · simp at he
  · split at he
    · injection he with h2
      rw [← h2]
    · dsimp only at he
      split at he
      · injection he with h2
        rw [← h2]
      · simp at he

theorem createHostVerifier_skip (w : SshWorld) (h : HostConfig)
    (hs : h.strictHostKeyChecking = some false) :
    createHostVerifier w h = ([], Except.ok none) := by
  unfold createHostVerifier
  rw [if_pos hs]

theorem createHostVerifier_missing_or_empty (w : SshWorld) (h : HostConfig)
    (hstrict : h.strictHostKeyChecking ≠ some false)
    (hstore : ∀ raw, lookupFile w (resolveKnownHostsPath w h) = some raw →
        loadKnownHostsParse raw = []) :
    ∃ msg, createHostVerifier w h
      = ([SshEffect.readKnownHosts (resolveKnownHostsPath w h)],
         Except.error ⟨ErrorCode.config, msg⟩) := by
  unfold createHostVerifier
  rw [if_neg hstrict]
  cases hf : lookupFile w (resolveKnownHostsPath w h) with
  | none =>
      refine ⟨"Known hosts file not found at " ++ resolveKnownHostsPath w h ++
        ". Provide a valid path or disable strictHostKeyChecking.", ?_⟩
      simp [loadKnownHostsEntries, hf]
  | some raw =>
      have hp := hstore raw hf
      refine ⟨"No entries found in known hosts file " ++ resolveKnownHostsPath w h ++
        "; cannot verify " ++ h.aliasName ++ ".", ?_⟩
      simp [loadKnownHostsEntries, hf, hp]

/-! ## C4 -/

/-- Fixture host for C4: key-file auth, strict checking left absent (enabled),
explicit known-hosts path. -/
def hostC4 : HostConfig :=
  { aliasName := "a", host := "h", username := "u",
    auth := AuthConfig.sshKey "/k" none, knownHostsPath := some "/kh" }

/-- Fixture world for C4: the private key exists, the known-hosts file does
not. -/
def worldC4 : SshWorld :=
  { files := [("/k", "KEY")], env := [], commandStdout := [], home := "/home/u",
    connectOk := true, channel := ⟨[], ChannelEnd.closes (some 0)⟩, elapsedMs := 1 }

/-- Fixture context for C4. -/
def ctxC4 : CommandExecutionContext := ⟨hostC4, "ls", {}⟩

/-- C4 counterexample: with verification enabled and the trusted-key store
missing, `execute` does fail with a `config` error, but the very first side
effect of the call is the credential-resolution read of the private key, so a
credential resolution side effect occurs before the `Config` failure. -/
theorem sshExecute_credential_side_effect_before_config_failure :
    (sshExecute worldC4 ctxC4).1.head? = some (SshEffect.readKeyFile "/k")
    ∧ errorCodeOf (sshExecute worldC4 ctxC4).2 = some ErrorCode.config := by
  decide

/-- C4 as amended: for a host with verification enabled and a missing or
entry-free trusted-key store, once credential resolution succeeds,
`Transport.execute` fails with a `Config` error and never attempts a
connection (so no connection-level authentication occurs); the side effects of
the call are exactly the credential-resolution effects followed by the store
read. -/
theorem sshExecute_missing_store_config_error
    (w : SshWorld) (ctx : CommandExecutionContext) (ae : List SshEffect) (m : AuthMaterial)
    (hstrict : ctx.host.strictHostKeyChecking ≠ some false)
    (hstore : ∀ raw, lookupFile w (resolveKnownHostsPath w ctx.host) = some raw →
        loadKnownHostsParse raw = [])
    (ha : resolveAuthConfig w ctx.host = (ae, Except.ok m)) :
    (∃ msg, (sshExecute w ctx).2 = Except.error ⟨ErrorCode.config, msg⟩)
    ∧ SshEffect.connectAttempt ∉ (sshExecute w ctx).1
    ∧ (sshExecute w ctx).1
        = ae ++ [SshEffect.readKnownHosts (resolveKnownHostsPath w ctx.host)] := by
  obtain ⟨msg, hver⟩ := createHostVerifier_missing_or_empty w ctx.host hstrict hstore
  have hshape := resolveAuth_effects_shape w ctx.host
  rw [ha] at hshape
  unfold sshExecute
  rw [ha, hver]
  refine ⟨⟨msg, rfl⟩, ?_, rfl⟩
  intro hmem
  rcases List.mem_append.mp hmem with hmem | hmem
  · rcases hshape with hae | ⟨p, hae⟩ | ⟨c, hae⟩ <;> simp at hae <;> subst hae <;> simp at hmem
  · simp at hmem

/-- Witness for the amended C4 at the concrete fixture. -/
theorem sshExecute_missing_store_config_error_witness :
    hostC4.strictHostKeyChecking ≠ some false
    ∧ resolveAuthConfig worldC4 hostC4
        = ([SshEffect.readKeyFile "/k"],
           Except.ok (AuthMaterial.privateKeyMaterial "KEY" none))
    ∧ ((∃ msg, (sshExecute worldC4 ctxC4).2 = Except.error ⟨ErrorCode.config, msg⟩)
      ∧ SshEffect.connectAttempt ∉ (sshExecute worldC4 ctxC4).1
      ∧ (sshExecute worldC4 ctxC4).1
          = [SshEffect.readKeyFile "/k"]
            ++ [SshEffect.readKnownHosts (resolveKnownHostsPath worldC4 ctxC4.host)]) :=
  ⟨by decide, by decide,
    sshExecute_missing_store_config_error worldC4 ctxC4 [SshEffect.readKeyFile "/k"]
      (AuthMaterial.privateKeyMaterial "KEY" none) (by decide)
      (fun raw hr => Option.noConfusion hr) (by decide)⟩

/-! ## C5 -/

/-- C5: when the exec channel stays open until the timeout timer — sized from
the per-invocation option or the 60-second default — fires, `execute` resolves
normally with a null exit code and the timed-out flag set, and the timer was
started with exactly that duration. -/
theorem sshExecute_timeout_success
    (w : SshWorld) (ctx : CommandExecutionContext) (ae ve : List SshEffect)
    (m : AuthMaterial) (v : Option HostVerifierData)
    (ha : resolveAuthConfig w ctx.host = (ae, Except.ok m))
    (hv : createHostVerifier w ctx.host = (ve, Except.ok v))
    (hc : w.connectOk = true)
    (he : w.channel.ending = ChannelEnd.hangsUntilTimeout) :
    (sshExecute w ctx).2 = Except.ok
      ⟨none, channelStdout w.channel.events, channelStderr w.channel.events,
        true, w.elapsedMs⟩
    ∧ SshEffect.startTimer (ctx.options.timeoutMs.getD 60000) ∈ (sshExecute w ctx).1 := by
  unfold sshExecute
  rw [ha, hv, hc, he]
  constructor
  · rfl
  · simp

/-- Fixture host for C5: agent auth, strict checking disabled. -/
def hostC5 : HostConfig :=
  { aliasName := "t", host := "h", username := "u",
    auth := AuthConfig.sshAgent (some "/sock"), strictHostKeyChecking := some false }

/-- Fixture world for C5: connection succeeds, the channel produces one chunk
and then hangs until the timer fires. -/
def worldC5 : SshWorld :=
  { files := [], env := [], commandStdout := [], home := "/home/u",
    connectOk := true, channel := ⟨[ChannelEvent.outData "x"], ChannelEnd.hangsUntilTimeout⟩,
    elapsedMs := 60000 }

/-- Fixture context for C5: no per-invocation timeout, so the default applies. -/
def ctxC5 : CommandExecutionContext := ⟨hostC5, "sleep 5000", {}⟩

/-- Witness for C5 at the concrete fixture. -/
theorem sshExecute_timeout_success_witness :
    worldC5.connectOk = true
    ∧ worldC5.channel.ending = ChannelEnd.hangsUntilTimeout
    ∧ ((sshExecute worldC5 ctxC5).2 = Except.ok
        ⟨none, channelStdout worldC5.channel.events, channelStderr worldC5.channel.events,
          true, worldC5.elapsedMs⟩
      ∧ SshEffect.startTimer (ctxC5.options.timeoutMs.getD 60000)
          ∈ (sshExecute worldC5 ctxC5).1) :=
  ⟨rfl, rfl,
    sshExecute_timeout_success worldC5 ctxC5 [] []
      (AuthMaterial.agentMaterial "/sock") none (by decide) (by decide) rfl rfl⟩

/-! ## C8 -/

/-- C8: the schema normalisation defaults an absent strict-verification flag to
disabled, and for every host with the flag disabled, executing a command never
reads a trusted-key store file and can never fail with a `config` error, so
the missing-or-empty-store error is unreachable. -/
theorem strict_disabled_no_store_read
    (h0 : HostConfig) (w : SshWorld) (ctx : CommandExecutionContext) :
    ((normalizeHost h0).strictHostKeyChecking = some (h0.strictHostKeyChecking.getD false))
    ∧ (h0.strictHostKeyChecking = none →
        (normalizeHost h0).strictHostKeyChecking = some false)
    ∧ (ctx.host.strictHostKeyChecking = some false →
        (∀ p, SshEffect.readKnownHosts p ∉ (sshExecute w ctx).1)
        ∧ ∀ e, (sshExecute w ctx).2 = Except.error e → e.code ≠ ErrorCode.config) := by
  refine ⟨rfl, fun hz => by simp [normalizeHost, hz], fun hsf => ?_⟩
  have hver := createHostVerifier_skip w ctx.host hsf
  rcases hres : resolveAuthConfig w ctx.host with ⟨ae, res⟩
  have hna : ∀ p, SshEffect.readKnownHosts p ∉ ae := by
    intro p
    have hx := resolveAuth_no_knownHosts w ctx.host p
    rw [hres] at hx
    simpa using hx
  have hcode : ∀ e0, res = Except.error e0 → e0.code = ErrorCode.auth := by
    intro e0 h0e
    apply resolveAuth_error_code w ctx.host e0
    rw [hres, h0e]
  unfold sshExecute
  rw [hres, hver]
  cases res with
  | error e0 =>
      refine ⟨fun p => hna p, fun e hee => ?_⟩
      injection hee with h2
      rw [← h2, hcode e0 rfl]
      simp
  | ok m =>
      cases hcv : w.connectOk <;> cases hend : w.channel.ending <;>
        refine ⟨fun p hmem => ?_, fun e hee => ?_⟩ <;>
        first
          | (simp at hmem
             exact hna p hmem)
          | (injection hee with h2
             rw [← h2]
             simp)
          | (injection hee)

/-- Witness for C8: defaulting at a host with the flag absent, and the
disabled-flag consequences at a concrete execution. -/
theorem strict_disabled_no_store_read_witness :
    ((normalizeHost hostC4).strictHostKeyChecking = some false)
    ∧ hostC5.strictHostKeyChecking = some false
    ∧ ((∀ p, SshEffect.readKnownHosts p ∉ (sshExecute worldC5 ctxC5).1)
      ∧ ∀ e, (sshExecute worldC5 ctxC5).2 = Except.error e → e.code ≠ ErrorCode.config) :=
  ⟨(strict_disabled_no_store_read hostC4 worldC5 ctxC5).2.1 rfl, rfl,
    (strict_disabled_no_store_read hostC5 worldC5 ctxC5).2.2 rfl⟩

/-! ## C7 -/

theorem dedupFirst_mem (c : String) (l : List String) : ∀ seen : List String,
    (c ∈ dedupFirst seen l ↔ c ∈ l ∧ c ∉ seen) := by
  induction l with
  | nil => intro seen; simp [dedupFirst]
  | cons x t ih =>
      intro seen
      by_cases hx : x ∈ seen
      · simp only [dedupFirst, if_pos hx, ih, List.mem_cons]
        constructor
        · rintro ⟨hct, hcs⟩
          exact ⟨Or.inr hct, hcs⟩
        · rintro ⟨hcx, hcs⟩
          rcases hcx with rfl | hct
          · exact absurd hx hcs
          · exact ⟨hct, hcs⟩
      · simp only [dedupFirst, if_neg hx, List.mem_cons]
        constructor
        · intro hc
          rcases hc with rfl | hc2
          · exact ⟨Or.inl rfl, hx⟩
          · rcases (ih (x :: seen)).mp hc2 with ⟨hct, hcs⟩
            refine ⟨Or.inr hct, fun hs2 => hcs (List.mem_cons_of_mem x hs2)⟩
        · rintro ⟨hcx, hcs⟩
          rcases hcx with rfl | hct
          · exact Or.inl rfl
          · by_cases hcx2 : c = x
            · exact Or.inl hcx2
            · refine Or.inr ((ih (x :: seen)).mpr ⟨hct, fun hmem => ?_⟩)
              rcases List.mem_cons.mp hmem with h1 | h2
              · exact hcx2 h1
              · exact hcs h2

theorem buildHostCandidates_mem (host : HostConfig) (c : String) :
    c ∈ buildHostCandidates host ↔
      ((c = host.host ∨ c = host.host ++ ":" ++ toString (host.port.getD 22)
        ∨ c = "[" ++ host.host ++ "]:" ++ toString (host.port.getD 22)
        ∨ c = host.aliasName) ∧ c ≠ "") := by
  unfold buildHostCandidates
  rw [List.mem_filter, dedupFirst_mem]
  simp [bne_iff_ne]

/-- C7: the host-key verification predicate accepts a presented key iff some
trusted-key store entry has a hostname intersecting the candidate set — which
consists exactly of the nonempty strings among the bare address, address:port,
bracketed [address]:port, and the alias — and that entry carries the base64
encoding of the presented key bytes. -/
theorem hostKeyAccepted_iff (entries : List KnownHostEntry) (host : HostConfig)
    (keyBytes : List Nat) :
    (hostKeyAccepted entries (buildHostCandidates host) keyBytes = true ↔
      ∃ entry ∈ entries,
        (∃ name ∈ entry.hostnames, name ∈ buildHostCandidates host)
        ∧ entry.key = base64Encode keyBytes)
    ∧ (∀ c, c ∈ buildHostCandidates host ↔
        ((c = host.host ∨ c = host.host ++ ":" ++ toString (host.port.getD 22)
          ∨ c = "[" ++ host.host ++ "]:" ++ toString (host.port.getD 22)
          ∨ c = host.aliasName) ∧ c ≠ "")) := by
  refine ⟨?_, buildHostCandidates_mem host⟩
  unfold hostKeyAccepted
  rw [List.any_eq_true]
  constructor
  · rintro ⟨entry, hmem, hpred⟩
    refine ⟨entry, hmem, ?_⟩
    by_cases hany : entry.hostnames.any
        (fun name => (buildHostCandidates host).contains name) = true
    · rw [if_neg (not_not_intro hany)] at hpred
      rw [List.any_eq_true] at hany
      rcases hany with ⟨name, hnm, hnc⟩
      exact ⟨⟨name, hnm, List.elem_iff.mp hnc⟩, beq_iff_eq.mp hpred⟩
    · rw [if_pos hany] at hpred
      exact absurd hpred (by simp)
  · rintro ⟨entry, hmem, ⟨name, hnm, hnc⟩, hkey⟩
    refine ⟨entry, hmem, ?_⟩
    have hany : entry.hostnames.any
        (fun name => (buildHostCandidates host).contains name) = true := by
      rw [List.any_eq_true]
      exact ⟨name, hnm, List.elem_iff.mpr hnc⟩
    rw [if_neg (not_not_intro hany)]
    exact beq_iff_eq.mpr hkey

/-! ## C9 -/

theorem backslash_ne_squote : ¬ (backslashChar = squote) := by decide

theorem sqParse_true_quote (rest : List Char) :
    sqParse true (squote :: rest) = sqParse false rest := by
  rw [sqParse.eq_def]
  simp

theorem sqParse_true_char (c : Char) (rest : List Char) (hc : ¬ c = squote) :
    sqParse true (c :: rest) = (sqParse true rest).map (fun l => c :: l) := by
  rw [sqParse.eq_def]
  simp [hc]

theorem sqParse_false_quote (rest : List Char) :
    sqParse false (squote :: rest) = sqParse true rest := by
  rw [sqParse.eq_def]
  simp

theorem sqParse_false_backslash (c2 : Char) (rest2 : List Char) :
    sqParse false (backslashChar :: c2 :: rest2)
      = (sqParse false rest2).map (fun l => c2 :: l) := by
  rw [sqParse.eq_def]
  simp [backslash_ne_squote]

theorem sqParse_false_nil : sqParse false [] = some [] := by
  rw [sqParse.eq_def]

theorem sqParse_escape_aux (l : List Char) :
    sqParse true (escapeSingleQuotesList l ++ [squote]) = some l := by
  induction l with
  | nil =>
      simp only [escapeSingleQuotesList, List.nil_append]
      rw [sqParse_true_quote, sqParse_false_nil]
  | cons c t ih =>
      by_cases hc : c = squote
      · subst hc
        simp only [escapeSingleQuotesList, if_true, List.cons_append]
        rw [sqParse_true_quote, sqParse_false_backslash, sqParse_false_quote, ih]
        rfl
      · simp only [escapeSingleQuotesList, if_neg hc, List.cons_append]
        rw [sqParse_true_char c _ hc, ih]
        rfl

theorem sqParse_escape (d : String) :
    sqParse false (squote :: (escapeSingleQuotes d).data ++ [squote]) = some d.data := by
  have h1 : (escapeSingleQuotes d).data = escapeSingleQuotesList d.data := rfl
  rw [h1, List.cons_append, sqParse_false_quote, sqParse_escape_aux]

theorem resolveAuth_no_openExec (w : SshWorld) (h : HostConfig) (q : String) :
    SshEffect.openExecChannel q ∉ (resolveAuthConfig w h).1 := by
  rcases resolveAuth_effects_shape w h with hs | ⟨p, hs⟩ | ⟨c, hs⟩ <;> rw [hs] <;> simp

theorem createHostVerifier_effects_shape (w : SshWorld) (h : HostConfig) :
    (createHostVerifier w h).1 = []
    ∨ ∃ p, (createHostVerifier w h).1 = [SshEffect.readKnownHosts p] := by
  unfold createHostVerifier
  by_cases hs : h.strictHostKeyChecking = some false
  · rw [if_pos hs]
    exact Or.inl rfl
  · rw [if_neg hs]
    dsimp only
    split
    · exact Or.inr ⟨_, rfl⟩
    · split
      · exact Or.inr ⟨_, rfl⟩
      · exact Or.inr ⟨_, rfl⟩

/-- C9 counterexample: a configured but empty working-directory override is not
rewritten at all — the command passes through unchanged, even masking a
nonempty host default — instead of being rewritten to a `cd` prefix. -/
theorem applyCwd_empty_override_not_rewritten :
    applyCwd "ls" (some "") = "ls"
    ∧ applyCwd "ls" ((some "").orElse (fun _ => some "/srv")) = "ls"
    ∧ applyCwd "ls" (some "")
        ≠ "cd " ++ squoteS ++ escapeSingleQuotes "" ++ squoteS ++ " && " ++ "ls" := by
  refine ⟨rfl, rfl, ?_⟩
  decide

/-- C9 as amended: with no override, or an empty-string override, the command
is unchanged; a nonempty override d (request cwd, else the host default) turns
command into cd followed by d wrapped in single quotes with every embedded
single quote replaced by the close-escape-reopen sequence; the quoted region
parses back, under shell single-quote reading, to exactly d without any bare
unquoted character, so the value cannot break out of the quoted scope; and any
exec channel the transport opens is opened for exactly the rewritten command. -/
theorem applyCwd_quoting
    (w : SshWorld) (ctx : CommandExecutionContext) :
    (∀ cmd, applyCwd cmd none = cmd)
    ∧ (∀ cmd d, d ≠ "" →
        applyCwd cmd (some d)
          = "cd " ++ squoteS ++ escapeSingleQuotes d ++ squoteS ++ " && " ++ cmd)
    ∧ (∀ d : String,
        sqParse false (squote :: (escapeSingleQuotes d).data ++ [squote]) = some d.data)
    ∧ (∀ cmdStr, SshEffect.openExecChannel cmdStr ∈ (sshExecute w ctx).1 →
        cmdStr = applyCwd ctx.command
          (ctx.options.cwd.orElse (fun _ => ctx.host.workingDirectory))) := by
  refine ⟨fun cmd => rfl, fun cmd d hd => by simp [applyCwd, hd], sqParse_escape, ?_⟩
  intro cmdStr hmem
  rcases hres : resolveAuthConfig w ctx.host with ⟨ae, res⟩
  have hae : SshEffect.openExecChannel cmdStr ∉ ae := by
    have hx := resolveAuth_no_openExec w ctx.host cmdStr
    rw [hres] at hx
    simpa using hx
  unfold sshExecute at hmem
  rw [hres] at hmem
  cases res with
  | error e0 => exact absurd hmem hae
  | ok m =>
      rcases hver : createHostVerifier w ctx.host with ⟨ve, vres⟩
      have hve : SshEffect.openExecChannel cmdStr ∉ ve := by
        rcases createHostVerifier_effects_shape w ctx.host with hsh | ⟨p, hsh⟩ <;>
          rw [hver] at hsh <;> simp at hsh <;> simp [hsh]
      rw [hver] at hmem
      cases vres with
      | error e0 =>
          simp at hmem
          rcases hmem with hmem | hmem
          · exact absurd hmem hae
          · exact absurd hmem hve
      | ok v =>
          cases hcv : w.connectOk <;> rw [hcv] at hmem
          · simp at hmem
            rcases hmem with hmem | hmem
            · exact absurd hmem hae
            · exact absurd hmem hve
          · cases hend : w.channel.ending <;> rw [hend] at hmem <;> simp at hmem <;>
              rcases hmem with hmem | hmem | hmem <;>
              first
                | exact absurd hmem hae
                | exact absurd hmem hve
                | exact hmem

/-- Witness for the amended C9: a concrete nonempty override is rewritten with
quoting, and the channel opened by a concrete execution carries exactly the
rewritten command. -/
theorem applyCwd_quoting_witness :
    (("a b" : String) ≠ "")
    ∧ applyCwd "ls" (some "a b")
        = "cd " ++ squoteS ++ escapeSingleQuotes "a b" ++ squoteS ++ " && " ++ "ls"
    ∧ (SshEffect.openExecChannel "sleep 5000" ∈ (sshExecute worldC5 ctxC5).1
      ∧ "sleep 5000" = applyCwd ctxC5.command
          (ctxC5.options.cwd.orElse (fun _ => ctxC5.host.workingDirectory))) :=
  ⟨by decide, (applyCwd_quoting worldC5 ctxC5).2.1 "ls" "a b" (by decide),
    by decide, (applyCwd_quoting worldC5 ctxC5).2.2.2 "sleep 5000" (by decide)⟩
